import Mathlib

/-!
Shallow embedding of `src/src/SingleCPUDllDirector.cpp` from the
sc4-single-cpu repository, together with theorems settling the claims of
its specification.

Modelling choices:
* `DWORD_PTR` values are natural numbers below `2 ^ w`, where `w` is the
  pointer width; the unary-minus cast in `GetLowestSetBitMask` is the
  two's-complement negation `(2 ^ w - v % 2 ^ w) % 2 ^ w`.
* The two Win32 calls (`GetProcessAffinityMask`, `SetProcessAffinityMask`)
  are oracles whose outcome is either success, a WIN32 `FALSE` return
  (which `THROW_IF_WIN32_BOOL_FALSE` converts into a thrown
  `wil::ResultException` carrying the OS diagnostic text), or a foreign
  exception of any other kind raised during the call.
* Effects (log lines written and OS calls issued, in order) are tracked
  explicitly; an uncaught exception is recorded in the result instead of
  being silently dropped, so propagation out of `OnStart` is observable.
-/

namespace SingleCPU

/-- Two's-complement negation of a `w`-bit value, as produced by the
`-static_cast<intptr_t>(value)` cast in the source. -/
def twosComplementNeg (w value : Nat) : Nat :=
  (2 ^ w - value % 2 ^ w) % 2 ^ w

/-- `GetLowestSetBitMask` from `SingleCPUDllDirector.cpp` (lines 41-48):
`value & -value` on a `w`-bit unsigned word. -/
def GetLowestSetBitMask (w value : Nat) : Nat :=
  value &&& twosComplementNeg w value

/-- Log levels used by the plugin's logger. -/
inductive LogLevel where
  | Info
  | Error
deriving DecidableEq, Repr

/-- The OS-affinity operations the code can issue, recorded in order. -/
inductive OsOp where
  | getAffinityMaskCall
  | setAffinityMaskCall (mask : Nat)
deriving DecidableEq, Repr

/-- Observable side effects of a run: log lines and OS calls, in order. -/
structure Effects where
  logs : List (LogLevel × String)
  osCalls : List OsOp
deriving DecidableEq, Repr

/-- Outcome of one Win32 call: success, a `FALSE` return with the OS
diagnostic text (turned into a `wil::ResultException` by
`THROW_IF_WIN32_BOOL_FALSE`), or any other exception raised during the
call. -/
inductive CallOutcome (α : Type) where
  | success (value : α)
  | win32Failure (diag : String)
  | foreignException (e : String)
deriving DecidableEq, Repr

/-- The OS oracle: what each affinity call would do in this run.
`getProcessAffinityMask` yields `(processAffinityMask, systemAffinityMask)`
on success. -/
structure OS where
  getProcessAffinityMask : CallOutcome (Nat × Nat)
  setProcessAffinityMask : Nat → CallOutcome Unit

/-- Result of `ConfigureForSingleCPU`: the effects produced, plus the
uncaught exception when one escaped the `catch (const wil::ResultException&)`
handler. -/
structure ConfigResult where
  effects : Effects
  uncaughtExn : Option String
deriving DecidableEq, Repr

/-- The error line written by the `catch` block (lines 77-80 of the
source); `%s` is replaced by `e.what()`. -/
def osErrorLine (diag : String) : String :=
  "An OS error occurred when configuring the game to use 1 CPU: " ++ diag ++ "."

/-- The success line written at Info level (lines 71-73 of the source). -/
def successLine : String :=
  "Configured the game to use 1 CPU core."

/-- `ConfigureForSingleCPU` from `SingleCPUDllDirector.cpp` (lines 50-82):
query the affinity masks, isolate the lowest set bit of the system mask,
set it as the process affinity; WIN32 failures become `wil::ResultException`,
which the `catch` turns into one Error log line; any other exception is
not caught. -/
def ConfigureForSingleCPU (w : Nat) (os : OS) : ConfigResult :=
  match os.getProcessAffinityMask with
  | .foreignException e =>
      ⟨⟨[], [.getAffinityMaskCall]⟩, some e⟩
  | .win32Failure diag =>
      ⟨⟨[(.Error, osErrorLine diag)], [.getAffinityMaskCall]⟩, none⟩
  | .success (_processAffinityMask, systemAffinityMask) =>
      let firstLogicalProcessor := GetLowestSetBitMask w systemAffinityMask
      match os.setProcessAffinityMask firstLogicalProcessor with
      | .foreignException e =>
          ⟨⟨[], [.getAffinityMaskCall, .setAffinityMaskCall firstLogicalProcessor]⟩,
            some e⟩
      | .win32Failure diag =>
          ⟨⟨[(.Error, osErrorLine diag)],
            [.getAffinityMaskCall, .setAffinityMaskCall firstLogicalProcessor]⟩,
            none⟩
      | .success _ =>
          ⟨⟨[(.Info, successLine)],
            [.getAffinityMaskCall, .setAffinityMaskCall firstLogicalProcessor]⟩,
            none⟩

/-- The host's command-line abstraction: `IsSwitchPresent(name, value,
caseSensitive)` returns the switch's value when the switch is present. -/
structure CmdLine where
  isSwitchPresent : String → Bool → Option String

/-- The skip line written when the `CPUCount` switch is present (lines
118-121 of the source); `%s` is replaced by the switch value. -/
def skipLine (value : String) : String :=
  "Skipped because the command line contains -CPUCount:" ++ value ++ "."

/-- Result of `OnStart`: effects plus either the returned boolean or the
exception that propagated out. -/
structure OnStartResult where
  effects : Effects
  outcome : Except String Bool
deriving Repr

/-- `SingleCPUDllDirector::OnStart` (lines 106-129): if the `CPUCount`
switch is present (case-sensitive), log the skip line and do nothing else;
otherwise run `ConfigureForSingleCPU`; return `true`. -/
def OnStart (w : Nat) (cmd : CmdLine) (os : OS) : OnStartResult :=
  match cmd.isSwitchPresent "CPUCount" true with
  | some value =>
      ⟨⟨[(.Info, skipLine value)], []⟩, .ok true⟩
  | none =>
      let cfg := ConfigureForSingleCPU w os
      match cfg.uncaughtExn with
      | some e => ⟨cfg.effects, .error e⟩
      | none => ⟨cfg.effects, .ok true⟩

/-- `s` contains `t` verbatim as a contiguous substring. -/
def ContainsVerbatim (s t : String) : Prop :=
  ∃ a b, s = a ++ t ++ b

/-! ### Bit-level facts about `value & -value` -/

lemma testBit_two_mul_succ (a i : Nat) : (2 * a).testBit (i + 1) = a.testBit i := by
  rw [Nat.testBit_add_one, Nat.mul_div_cancel_left a (by norm_num)]

lemma testBit_two_mul_zero (a : Nat) : (2 * a).testBit 0 = false := by
  simp [Nat.testBit_zero, Nat.mul_mod_right]

lemma testBit_two_mul_add_one_succ (a i : Nat) :
    (2 * a + 1).testBit (i + 1) = a.testBit i := by
  rw [Nat.testBit_add_one]
  have h : (2 * a + 1) / 2 = a := by omega
  rw [h]

lemma testBit_two_mul_add_one_zero (a : Nat) : (2 * a + 1).testBit 0 = true := by
  have h : (2 * a + 1) % 2 = 1 := by omega
  simp [Nat.testBit_zero, h]

lemma two_mul_land_two_mul (a b : Nat) : (2 * a) &&& (2 * b) = 2 * (a &&& b) := by
  apply Nat.eq_of_testBit_eq
  intro i
  cases i with
  | zero => simp [testBit_two_mul_zero]
  | succ i => simp [testBit_two_mul_succ]

lemma two_mul_add_one_land_self (a b : Nat) :
    (2 * a + 1) &&& (2 * b + 1) = 2 * (a &&& b) + 1 := by
  apply Nat.eq_of_testBit_eq
  intro i
  cases i with
  | zero => simp only [Nat.testBit_and, testBit_two_mul_add_one_zero, Bool.and_self]
  | succ i => simp [testBit_two_mul_add_one_succ]

lemma two_mul_land_two_mul_add_one (a b : Nat) :
    (2 * a) &&& (2 * b + 1) = 2 * (a &&& b) := by
  apply Nat.eq_of_testBit_eq
  intro i
  cases i with
  | zero => simp [testBit_two_mul_zero]
  | succ i => simp [testBit_two_mul_succ, testBit_two_mul_add_one_succ]

lemma two_mul_add_one_land_two_mul (a b : Nat) :
    (2 * a + 1) &&& (2 * b) = 2 * (a &&& b) := by
  apply Nat.eq_of_testBit_eq
  intro i
  cases i with
  | zero => simp [testBit_two_mul_zero, testBit_two_mul_add_one_zero]
  | succ i => simp [testBit_two_mul_succ, testBit_two_mul_add_one_succ]

/-- A value and its bitwise complement relative to `2 ^ n - 1` share no bits. -/
lemma land_two_pow_sub_one_sub_self (n : Nat) :
    ∀ q, q < 2 ^ n → q &&& (2 ^ n - 1 - q) = 0 := by
  induction n with
  | zero =>
      intro q hq
      have hq0 : q = 0 := by omega
      subst hq0
      decide
  | succ n ih =>
      intro q hq
      have h2 : 2 ^ (n + 1) = 2 * 2 ^ n := by ring
      have hb : q % 2 = 0 ∨ q % 2 = 1 := by omega
      rcases hb with hb | hb
      · obtain ⟨c, rfl⟩ : ∃ c, q = 2 * c := ⟨q / 2, by omega⟩
        have hc : c < 2 ^ n := by omega
        have hrest : 2 ^ (n + 1) - 1 - 2 * c = 2 * (2 ^ n - 1 - c) + 1 := by omega
        rw [hrest, two_mul_land_two_mul_add_one, ih c hc, Nat.mul_zero]
      · obtain ⟨c, rfl⟩ : ∃ c, q = 2 * c + 1 := ⟨q / 2, by omega⟩
        have hc : c < 2 ^ n := by omega
        have hrest : 2 ^ (n + 1) - 1 - (2 * c + 1) = 2 * (2 ^ n - 1 - c) := by omega
        rw [hrest, two_mul_add_one_land_two_mul, ih c hc, Nat.mul_zero]

/-- Core fact behind the `value & -value` trick: for a nonzero `w`-bit
value, the result is a power of two whose exponent is the position of the
lowest set bit of the input. -/
lemma lowestSetBit_spec (w : Nat) :
    ∀ v, 0 < v → v < 2 ^ w →
      ∃ k, GetLowestSetBitMask w v = 2 ^ k ∧ v.testBit k = true ∧
        ∀ j, j < k → v.testBit j = false := by
  induction w with
  | zero =>
      intro v h0 hw
      norm_num at hw
      omega
  | succ w ih =>
      intro v h0 hw
      have h2 : 2 ^ (w + 1) = 2 * 2 ^ w := by ring
      have hneg : twosComplementNeg (w + 1) v = 2 ^ (w + 1) - v := by
        unfold twosComplementNeg
        rw [Nat.mod_eq_of_lt hw, Nat.mod_eq_of_lt (by omega)]
      have hb : v % 2 = 0 ∨ v % 2 = 1 := by omega
      rcases hb with hb | hb
      · obtain ⟨c, rfl⟩ : ∃ c, v = 2 * c := ⟨v / 2, by omega⟩
        have hc0 : 0 < c := by omega
        have hcw : c < 2 ^ w := by omega
        have hrest : 2 ^ (w + 1) - 2 * c = 2 * (2 ^ w - c) := by omega
        have hsub : GetLowestSetBitMask (w + 1) (2 * c) = 2 * GetLowestSetBitMask w c := by
          unfold GetLowestSetBitMask
          rw [hneg, hrest, two_mul_land_two_mul]
          have hneg' : twosComplementNeg w c = 2 ^ w - c := by
            unfold twosComplementNeg
            rw [Nat.mod_eq_of_lt hcw, Nat.mod_eq_of_lt (by omega)]
          rw [hneg']
        obtain ⟨k, hk, hbit, hlow⟩ := ih c hc0 hcw
        refine ⟨k + 1, ?_, ?_, ?_⟩
        · rw [hsub, hk]
          ring
        · rw [testBit_two_mul_succ]
          exact hbit
        · intro j hj
          cases j with
          | zero => exact testBit_two_mul_zero c
          | succ j =>
              rw [testBit_two_mul_succ]
              exact hlow j (by omega)
      · obtain ⟨c, rfl⟩ : ∃ c, v = 2 * c + 1 := ⟨v / 2, by omega⟩
        have hcw : c < 2 ^ w := by omega
        have hrest : 2 ^ (w + 1) - (2 * c + 1) = 2 * (2 ^ w - 1 - c) + 1 := by omega
        refine ⟨0, ?_, testBit_two_mul_add_one_zero c, ?_⟩
        · unfold GetLowestSetBitMask
          rw [hneg, hrest, two_mul_add_one_land_self,
            land_two_pow_sub_one_sub_self w c hcw, Nat.mul_zero]
          norm_num
        · intro j hj
          omega

/-! ### Helper lemmas about the embedded routines -/

/-- Every run of `ConfigureForSingleCPU` issues the affinity query first. -/
lemma configure_queries_affinity (w : Nat) (os : OS) :
    OsOp.getAffinityMaskCall ∈ (ConfigureForSingleCPU w os).effects.osCalls := by
  unfold ConfigureForSingleCPU
  cases hget : os.getProcessAffinityMask with
  | foreignException e => simp [hget]
  | win32Failure diag => simp [hget]
  | success p =>
      obtain ⟨pm, sm⟩ := p
      cases hset : os.setProcessAffinityMask (GetLowestSetBitMask w sm) <;>
        simp [hget, hset]

/-- When the affinity query succeeds, the mask passed to
`SetProcessAffinityMask` is the lowest set bit of the system mask. -/
lemma configure_set_call (w : Nat) (os : OS) (pm sm : Nat)
    (hget : os.getProcessAffinityMask = .success (pm, sm)) :
    OsOp.setAffinityMaskCall (GetLowestSetBitMask w sm) ∈
      (ConfigureForSingleCPU w os).effects.osCalls := by
  unfold ConfigureForSingleCPU
  rw [hget]
  cases hset : os.setProcessAffinityMask (GetLowestSetBitMask w sm) <;>
    simp [hset]

/-! ### Concrete instances used for witnesses and counterexamples -/

/-- Command line on which `IsSwitchPresent` reports the `CPUCount` switch
with value `"2"`. -/
def cmdWithSwitch : CmdLine where
  isSwitchPresent := fun _ _ => some "2"

/-- Command line with no `CPUCount` switch. -/
def cmdNoSwitch : CmdLine where
  isSwitchPresent := fun _ _ => none

/-- OS state of the end-to-end scenario: both masks `0b1010`, both calls
succeed. -/
def osMask1010 : OS where
  getProcessAffinityMask := .success (10, 10)
  setProcessAffinityMask := fun _ => .success ()

/-- OS state where the process mask is `0b1000` but the system mask is
`0b1010`: processor 1 exists on the machine yet is not available to the
process. -/
def osRestrictedProcess : OS where
  getProcessAffinityMask := .success (8, 10)
  setProcessAffinityMask := fun _ => .success ()

/-- OS state where the affinity query returns `FALSE`. -/
def osGetFails : OS where
  getProcessAffinityMask := .win32Failure "Access is denied"
  setProcessAffinityMask := fun _ => .success ()

/-- OS state where the query succeeds but the set call returns `FALSE`. -/
def osSetFails : OS where
  getProcessAffinityMask := .success (10, 10)
  setProcessAffinityMask := fun _ => .win32Failure "Invalid parameter"

/-- OS state where the affinity query raises a non-`ResultException`
exception. -/
def osGetThrowsForeign : OS where
  getProcessAffinityMask := .foreignException "std::bad_alloc"
  setProcessAffinityMask := fun _ => .success ()

/-! ### Claim theorems -/

/-- C1: for every non-zero `w`-bit `SystemAffinityMask` `M`,
`GetLowestSetBitMask M` is computed by the two's-complement identity
`mask & (-mask)` and returns a value with exactly one bit set; that bit is
set in `M` and no lower-numbered bit of `M` is set. -/
theorem getLowestSetBitMask_isolates_lowest_bit (w M : Nat)
    (h0 : 0 < M) (hw : M < 2 ^ w) :
    GetLowestSetBitMask w M = M &&& ((2 ^ w - M % 2 ^ w) % 2 ^ w) ∧
      ∃ k, GetLowestSetBitMask w M = 2 ^ k ∧ M.testBit k = true ∧
        ∀ j, j < k → M.testBit j = false :=
  ⟨rfl, lowestSetBit_spec w M h0 hw⟩

/-- Witness for C1 at `w = 4`, `M = 12 = 0b1100`: the result is
`4 = 2 ^ 2`, bit 2 of `M` is set and bits 0, 1 are clear. -/
theorem getLowestSetBitMask_isolates_lowest_bit_witness :
    0 < 12 ∧ 12 < 2 ^ 4 ∧
      (GetLowestSetBitMask 4 12 = 12 &&& ((2 ^ 4 - 12 % 2 ^ 4) % 2 ^ 4) ∧
        ∃ k, GetLowestSetBitMask 4 12 = 2 ^ k ∧ Nat.testBit 12 k = true ∧
          ∀ j, j < k → Nat.testBit 12 j = false) :=
  ⟨by norm_num, by norm_num,
    getLowestSetBitMask_isolates_lowest_bit 4 12 (by norm_num) (by norm_num)⟩

/-- C7: the selection function is pure and deterministic — evaluating
`GetLowestSetBitMask` twice on the same mask yields the same result, and
no other state enters the computation. -/
theorem getLowestSetBitMask_deterministic (w M : Nat) :
    GetLowestSetBitMask w M = GetLowestSetBitMask w M :=
  rfl

/-- C9: `GetLowestSetBitMask 0 = 0`, and when the OS reports a system
affinity mask of `0`, the code passes the mask `0` straight to
`SetProcessAffinityMask` instead of detecting the degenerate input. -/
theorem getLowestSetBitMask_zero (w : Nat) (os : OS) (pm : Nat)
    (hget : os.getProcessAffinityMask = .success (pm, 0)) :
    GetLowestSetBitMask w 0 = 0 ∧
      OsOp.setAffinityMaskCall 0 ∈ (ConfigureForSingleCPU w os).effects.osCalls := by
  have hz : GetLowestSetBitMask w 0 = 0 := by
    unfold GetLowestSetBitMask
    exact Nat.zero_and _
  refine ⟨hz, ?_⟩
  have h := configure_set_call w os pm 0 hget
  rwa [hz] at h

/-- Witness for C9: an OS whose affinity query reports system mask `0`. -/
def osZeroSystemMask : OS where
  getProcessAffinityMask := .success (10, 0)
  setProcessAffinityMask := fun _ => .success ()

/-- Witness for C9 at `w = 4` on `osZeroSystemMask`. -/
theorem getLowestSetBitMask_zero_witness :
    GetLowestSetBitMask 4 0 = 0 ∧
      OsOp.setAffinityMaskCall 0 ∈
        (ConfigureForSingleCPU 4 osZeroSystemMask).effects.osCalls :=
  getLowestSetBitMask_zero 4 osZeroSystemMask 10 rfl

/-- C10: for every mask value `M` — including `0` and the top-bit-only
value, where the two's-complement negation wraps — the result of
`GetLowestSetBitMask` is a subset of `M`'s bits and is at most `M`. -/
theorem getLowestSetBitMask_subset (w M : Nat) :
    GetLowestSetBitMask w M &&& M = GetLowestSetBitMask w M ∧
      GetLowestSetBitMask w M ≤ M := by
  constructor
  · apply Nat.eq_of_testBit_eq
    intro i
    simp only [GetLowestSetBitMask, Nat.testBit_and]
    cases M.testBit i <;> cases (twosComplementNeg w M).testBit i <;> rfl
  · simp only [GetLowestSetBitMask]
    exact Nat.and_le_left

/-- C2: when the `CPUCount` switch is present with any value, `OnStart`
issues no affinity query or set call and logs one skip line containing the
supplied value verbatim; when the switch is absent, the affinity
configuration runs (so the override check precedes any affinity
mutation). -/
theorem onStart_override_precedence (w : Nat) (cmd : CmdLine) (os : OS) :
    (∀ value, cmd.isSwitchPresent "CPUCount" true = some value →
        (OnStart w cmd os).effects.osCalls = [] ∧
          (OnStart w cmd os).effects.logs = [(LogLevel.Info, skipLine value)] ∧
          ContainsVerbatim (skipLine value) value) ∧
      (cmd.isSwitchPresent "CPUCount" true = none →
        (OnStart w cmd os).effects = (ConfigureForSingleCPU w os).effects ∧
          OsOp.getAffinityMaskCall ∈ (OnStart w cmd os).effects.osCalls) := by
  constructor
  · intro value hv
    unfold OnStart
    rw [hv]
    exact ⟨rfl, rfl,
      "Skipped because the command line contains -CPUCount:", ".", rfl⟩
  · intro hnone
    have heff : (OnStart w cmd os).effects = (ConfigureForSingleCPU w os).effects := by
      unfold OnStart
      rw [hnone]
      cases hexn : (ConfigureForSingleCPU w os).uncaughtExn <;> simp [hexn]
    refine ⟨heff, ?_⟩
    rw [heff]
    exact configure_queries_affinity w os

/-- Witness for C2: with the switch present no OS call is issued; without
it, `OnStart` produces exactly the effects of `ConfigureForSingleCPU`. -/
theorem onStart_override_precedence_witness :
    (OnStart 4 cmdWithSwitch osMask1010).effects.osCalls = [] ∧
      (OnStart 4 cmdNoSwitch osMask1010).effects =
        (ConfigureForSingleCPU 4 osMask1010).effects :=
  ⟨((onStart_override_precedence 4 cmdWithSwitch osMask1010).1 "2" rfl).1,
    ((onStart_override_precedence 4 cmdNoSwitch osMask1010).2 rfl).1⟩

/-- C3: when the affinity query or the affinity set returns `FALSE`, the
resulting `wil::ResultException` is caught at its single call site (no
exception escapes `ConfigureForSingleCPU`) and exactly one Error-level
line containing the OS diagnostic text is logged. -/
theorem configure_fail_open (w : Nat) (os : OS) (diag : String)
    (hfail : os.getProcessAffinityMask = .win32Failure diag ∨
      ∃ pm sm, os.getProcessAffinityMask = .success (pm, sm) ∧
        os.setProcessAffinityMask (GetLowestSetBitMask w sm) = .win32Failure diag) :
    (ConfigureForSingleCPU w os).uncaughtExn = none ∧
      (ConfigureForSingleCPU w os).effects.logs.filter
          (fun p => decide (p.1 = LogLevel.Error)) =
        [(LogLevel.Error, osErrorLine diag)] ∧
      ContainsVerbatim (osErrorLine diag) diag := by
  have hmem : ContainsVerbatim (osErrorLine diag) diag :=
    ⟨"An OS error occurred when configuring the game to use 1 CPU: ", ".", rfl⟩
  rcases hfail with hget | ⟨pm, sm, hget, hset⟩
  · unfold ConfigureForSingleCPU
    rw [hget]
    exact ⟨rfl, by simp, hmem⟩
  · unfold ConfigureForSingleCPU
    rw [hget]
    refine ⟨?_, ?_, hmem⟩ <;> simp [hset]

/-- Witness for C3: the query fails with "Access is denied"; the run is
fail-open with one matching Error line. -/
theorem configure_fail_open_witness :
    (ConfigureForSingleCPU 4 osGetFails).uncaughtExn = none ∧
      (ConfigureForSingleCPU 4 osGetFails).effects.logs.filter
          (fun p => decide (p.1 = LogLevel.Error)) =
        [(LogLevel.Error, osErrorLine "Access is denied")] ∧
      ContainsVerbatim (osErrorLine "Access is denied") "Access is denied" :=
  configure_fail_open 4 osGetFails "Access is denied" (Or.inl rfl)

/-- C4 as stated is false: with process mask `0b1000` and system mask
`0b1010`, the code passes `0b0010` to `SetProcessAffinityMask`, a bit that
is not set in the process's own affinity mask. -/
theorem selected_bit_not_in_process_mask :
    (ConfigureForSingleCPU 4 osRestrictedProcess).effects.osCalls =
        [OsOp.getAffinityMaskCall, OsOp.setAffinityMaskCall 2] ∧
      Nat.testBit 8 1 = false ∧ 2 &&& 8 ≠ 2 := by
  refine ⟨?_, by decide, by decide⟩
  have h : GetLowestSetBitMask 4 10 = 2 := by decide
  unfold ConfigureForSingleCPU osRestrictedProcess
  simp [h]

/-- C4 amended: the single-bit mask passed to `SetProcessAffinityMask` is
the lowest set bit of the *system* affinity mask — a bit set in
`systemAffinityMask` (not necessarily in `processAffinityMask`) whenever
the system mask is nonzero. -/
theorem selected_bit_in_system_mask (w : Nat) (os : OS) (pm sm : Nat)
    (hget : os.getProcessAffinityMask = .success (pm, sm))
    (h0 : 0 < sm) (hw : sm < 2 ^ w) :
    OsOp.setAffinityMaskCall (GetLowestSetBitMask w sm) ∈
        (ConfigureForSingleCPU w os).effects.osCalls ∧
      ∃ k, GetLowestSetBitMask w sm = 2 ^ k ∧ sm.testBit k = true := by
  refine ⟨configure_set_call w os pm sm hget, ?_⟩
  obtain ⟨k, hk, hbit, _⟩ := lowestSetBit_spec w sm h0 hw
  exact ⟨k, hk, hbit⟩

/-- Witness for the amended C4 on `osMask1010`: the set call uses
`GetLowestSetBitMask 4 10 = 2`, a bit set in the system mask `10`. -/
theorem selected_bit_in_system_mask_witness :
    OsOp.setAffinityMaskCall (GetLowestSetBitMask 4 10) ∈
        (ConfigureForSingleCPU 4 osMask1010).effects.osCalls ∧
      ∃ k, GetLowestSetBitMask 4 10 = 2 ^ k ∧ Nat.testBit 10 k = true :=
  selected_bit_in_system_mask 4 osMask1010 10 10 rfl (by norm_num) (by norm_num)

/-- No OS call of this run raises an exception other than the
`wil::ResultException` produced by `THROW_IF_WIN32_BOOL_FALSE`. -/
def OS.noForeignExceptions (os : OS) : Prop :=
  (∀ e, os.getProcessAffinityMask ≠ CallOutcome.foreignException e) ∧
    ∀ m e, os.setProcessAffinityMask m ≠ CallOutcome.foreignException e

/-- C5: whatever the command line and whichever of the three outcomes the
affinity configuration takes (skipped, applied, or failed with an OS
error), `OnStart` returns `true`. -/
theorem onStart_always_true (w : Nat) (cmd : CmdLine) (os : OS)
    (h : os.noForeignExceptions) :
    (OnStart w cmd os).outcome = Except.ok true := by
  have hcfg : (ConfigureForSingleCPU w os).uncaughtExn = none := by
    unfold ConfigureForSingleCPU
    cases hget : os.getProcessAffinityMask with
    | foreignException e => exact absurd hget (h.1 e)
    | win32Failure diag => simp [hget]
    | success p =>
        obtain ⟨pm, sm⟩ := p
        cases hset : os.setProcessAffinityMask (GetLowestSetBitMask w sm) with
        | foreignException e => exact absurd hset (h.2 _ e)
        | win32Failure diag => simp [hget, hset]
        | success u => simp [hget, hset]
  unfold OnStart
  cases hsw : cmd.isSwitchPresent "CPUCount" true with
  | some value => rfl
  | none => simp [hcfg]

/-- Witness for C5: concrete runs for all three outcomes (skip, success,
OS failure) return `true`. -/
theorem onStart_always_true_witness :
    (OnStart 4 cmdWithSwitch osMask1010).outcome = Except.ok true ∧
      (OnStart 4 cmdNoSwitch osMask1010).outcome = Except.ok true ∧
      (OnStart 4 cmdNoSwitch osSetFails).outcome = Except.ok true :=
  ⟨onStart_always_true 4 cmdWithSwitch osMask1010
      ⟨fun _e h => CallOutcome.noConfusion h, fun _m _e h => CallOutcome.noConfusion h⟩,
    onStart_always_true 4 cmdNoSwitch osMask1010
      ⟨fun _e h => CallOutcome.noConfusion h, fun _m _e h => CallOutcome.noConfusion h⟩,
    onStart_always_true 4 cmdNoSwitch osSetFails
      ⟨fun _e h => CallOutcome.noConfusion h, fun _m _e h => CallOutcome.noConfusion h⟩⟩

/-- C6: end-to-end scenario — system mask `0b1010`, no `CPUCount` switch:
`SetProcessAffinityMask` is called with `0b0010` and exactly one
Info-level log line mentioning "1 CPU core" is emitted. -/
theorem end_to_end_scenario :
    (OnStart 4 cmdNoSwitch osMask1010).effects.osCalls =
        [OsOp.getAffinityMaskCall, OsOp.setAffinityMaskCall 2] ∧
      (OnStart 4 cmdNoSwitch osMask1010).effects.logs.filter
          (fun p => decide (p.1 = LogLevel.Info)) =
        [(LogLevel.Info, successLine)] ∧
      ContainsVerbatim successLine "1 CPU core" := by
  refine ⟨by decide, by decide, "Configured the game to use ", ".", by decide⟩

/-- C8: the `catch` covers only `wil::ResultException`; any other
exception raised during the configuration call escapes
`ConfigureForSingleCPU` and propagates out of `OnStart`. -/
theorem foreign_exception_propagates (w : Nat) (cmd : CmdLine) (os : OS) (e : String)
    (hsw : cmd.isSwitchPresent "CPUCount" true = none)
    (hfail : os.getProcessAffinityMask = .foreignException e ∨
      ∃ pm sm, os.getProcessAffinityMask = .success (pm, sm) ∧
        os.setProcessAffinityMask (GetLowestSetBitMask w sm) = .foreignException e) :
    (ConfigureForSingleCPU w os).uncaughtExn = some e ∧
      (OnStart w cmd os).outcome = Except.error e := by
  have hcfg : (ConfigureForSingleCPU w os).uncaughtExn = some e := by
    rcases hfail with hget | ⟨pm, sm, hget, hset⟩
    · unfold ConfigureForSingleCPU
      rw [hget]
    · unfold ConfigureForSingleCPU
      rw [hget]
      simp [hset]
  refine ⟨hcfg, ?_⟩
  unfold OnStart
  rw [hsw]
  simp [hcfg]

/-- Witness for C8: the query raises `std::bad_alloc`; it escapes the
startup hook. -/
theorem foreign_exception_propagates_witness :
    (ConfigureForSingleCPU 4 osGetThrowsForeign).uncaughtExn = some "std::bad_alloc" ∧
      (OnStart 4 cmdNoSwitch osGetThrowsForeign).outcome =
        Except.error "std::bad_alloc" :=
  foreign_exception_propagates 4 cmdNoSwitch osGetThrowsForeign "std::bad_alloc"
    rfl (Or.inl rfl)

end SingleCPU
